import Mathlib

/-!
Verification development for the 2D-to-3D converter.

The definitions in this file are a shallow embedding of the JavaScript
pipeline in `src/unnamed/part_001` (the main converter: depth-map
extraction, plane construction, vertex displacement, scene lifecycle,
export handlers) together with the parts of three.js r150 that the
pipeline calls (`PlaneGeometry`, `computeVertexNormals`).  JavaScript
number arithmetic is modelled exactly over `ℚ`; pixel data read from a
canvas is a flat row-major RGBA list of bytes, modelled as `List ℕ`.
-/

namespace ImageTo3D

/-- Storing a number into a JS `Uint8ClampedArray` (as the grayscale loop
does with `imgData.data[i] = lum`) clamps to `[0, 255]` and rounds to the
nearest integer, ties to even. -/
def uint8Clamp (q : ℚ) : ℕ :=
  if q ≤ 0 then 0
  else if 255 ≤ q then 255
  else if q - ⌊q⌋ < 1/2 then (⌊q⌋).toNat
  else if (1 : ℚ)/2 < q - ⌊q⌋ then (⌊q⌋).toNat + 1
  else if (⌊q⌋).toNat % 2 = 0 then (⌊q⌋).toNat else (⌊q⌋).toNat + 1

/-- The luminance formula `0.299*r + 0.587*g + 0.114*b` applied to one
pixel (lines 144-145 and 268-269 of `src/unnamed/part_001`). -/
def luminance (r g b : ℕ) : ℚ := 0.299 * r + 0.587 * g + 0.114 * b

/-- The grayscale pass over a flat RGBA byte array: for each group of four
bytes, replace R, G and B by the (clamped-byte) luminance and keep A
(the `for (let i = 0; i < imgData.data.length; i += 4)` loop of
`create3DFromImage`, lines 267-271). -/
def computeLuminanceData : List ℕ → List ℕ
  | r :: g :: b :: a :: rest =>
    let lum := uint8Clamp (luminance r g b)
    lum :: lum :: lum :: a :: computeLuminanceData rest
  | rest => rest

/-- A decoded RGBA image: the data of `ctx.getImageData(0, 0, w, h)`.
Validity (assumed in the claims): `width, height > 0` and
`data.length = width * height * 4`. -/
structure PixelBuffer where
  width : ℕ
  height : ℕ
  data : List ℕ
deriving Repr, DecidableEq

/-- A single-channel depth field stored, as the code stores it, inside a
flat RGBA array with R = G = B = the stored depth byte. -/
structure DepthField where
  width : ℕ
  height : ℕ
  data : List ℕ
deriving Repr, DecidableEq

/-- The depth sample at pixel `(x, y)`: the red channel of the stored RGBA
array, normalized to `[0,1]` by dividing by 255 (this is the
`brightness / 255` read of the displacement loop). -/
def DepthField.sample (df : DepthField) (x y : ℕ) : ℚ :=
  (df.data.getD ((y * df.width + x) * 4) 0 : ℚ) / 255

/-- `DepthExtractor.computeLuminance`: run the grayscale pass over the
pixel buffer, keeping its dimensions. -/
def computeLuminanceField (pb : PixelBuffer) : DepthField :=
  ⟨pb.width, pb.height, computeLuminanceData pb.data⟩

/-- `px = Math.floor(u * (imgWidth - 1))` (line 312). -/
def samplePx (imgWidth : ℕ) (u : ℚ) : ℤ := ⌊u * ((imgWidth : ℚ) - 1)⌋

/-- `py = Math.floor((1 - v) * (imgHeight - 1))` (line 313, V inverted). -/
def samplePy (imgHeight : ℕ) (v : ℚ) : ℤ := ⌊(1 - v) * ((imgHeight : ℚ) - 1)⌋

/-- `idx = (py * imgWidth + px) * 4` (line 314). -/
def sampleIdx (imgWidth imgHeight : ℕ) (u v : ℚ) : ℤ :=
  (samplePy imgHeight v * imgWidth + samplePx imgWidth u) * 4

/-- Read a byte of a flat array at a (possibly signed) index.  A JS read
outside the array yields `undefined`; it is modelled as 0 here and proved
unreachable for in-range UVs (claim C9). -/
def readByte (data : List ℕ) (i : ℤ) : ℕ :=
  if 0 ≤ i then data.getD i.toNat 0 else 0

/-- The displaced height of a vertex with UV `(u, v)`:
`heightVal = (1 - brightness / 255) * 0.5` where `brightness` is the depth
byte at the sampled pixel (lines 309-318). -/
def displaceHeight (data : List ℕ) (imgWidth imgHeight : ℕ) (u v : ℚ) : ℚ :=
  (1 - (readByte data (sampleIdx imgWidth imgHeight u v) : ℚ) / 255) * 0.5

/-- `aspect = imgWidth / imgHeight` (line 276). -/
def aspectOf (imgWidth imgHeight : ℕ) : ℚ := (imgWidth : ℚ) / (imgHeight : ℚ)

/-- Plane sizing (lines 277-278):
`planeWidth  = (aspect >= 1) ? aspect : 1;`
`planeHeight = (aspect >= 1) ? 1 : (1 / aspect)`. -/
def planeSize (imgWidth imgHeight : ℕ) : ℚ × ℚ :=
  let aspect := aspectOf imgWidth imgHeight
  (if 1 ≤ aspect then aspect else 1, if 1 ≤ aspect then 1 else 1 / aspect)

/-- Segment count for one plane axis (lines 279-283):
`Math.floor(100 * (dim > 1 ? dim : 1))` then `Math.max(·, 10)`. -/
def segCount (dim : ℚ) : ℕ :=
  max ((⌊100 * (if 1 < dim then dim else 1)⌋).toNat) 10

/-- The downscale factor of `create3DFromImage` (lines 253-257): if
either dimension exceeds 512, `min(512/w, 512/h)`, else 1.  The resulting
dimensions are floored with no lower clamp. -/
def downscaleScale (w h : ℕ) : ℚ :=
  if 512 < w ∨ 512 < h then min (512 / (w : ℚ)) (512 / (h : ℚ)) else 1

/-- `imgWidth = Math.floor(naturalWidth * scale)` and likewise for the
height (lines 258-259). -/
def downscaleDims (w h : ℕ) : ℕ × ℕ :=
  ((⌊(w : ℚ) * downscaleScale w h⌋).toNat, (⌊(h : ℚ) * downscaleScale w h⌋).toNat)

/-- Flat RGBA data of a solid-color image of `n` pixels `(r, g, b, 255)`. -/
def mkSolid (r g b : ℕ) : ℕ → List ℕ
  | 0 => []
  | n + 1 => r :: g :: b :: 255 :: mkSolid r g b n

/-! ### The plane grid (embedded from three.js r150 `PlaneGeometry`)

`PlaneGeometry(width, height, gridX, gridY)` emits `(gridX+1)*(gridY+1)`
vertices in row-major order: for row `iy` and column `ix`, position
`(ix*(width/gridX) - width/2, height/2 - iy*(height/gridY), 0)` and UV
`(ix/gridX, 1 - iy/gridY)`; each grid cell becomes the two triangles
`(a,b,d)` and `(b,c,d)`.  -/

/-- Grid index pairs `(ix, iy)` in the emission order of `PlaneGeometry`. -/
def planeVertices (gridX gridY : ℕ) : List (ℕ × ℕ) :=
  (List.range (gridY + 1)).flatMap fun iy => (List.range (gridX + 1)).map fun ix => (ix, iy)

/-- `u = ix / gridX`. -/
def vertexU (gridX ix : ℕ) : ℚ := (ix : ℚ) / (gridX : ℚ)

/-- `v = 1 - iy / gridY`. -/
def vertexV (gridY iy : ℕ) : ℚ := 1 - (iy : ℚ) / (gridY : ℚ)

/-- Triangle index triples of `PlaneGeometry`. -/
def planeTriangles (gridX gridY : ℕ) : List (ℕ × ℕ × ℕ) :=
  (List.range gridY).flatMap fun iy => (List.range gridX).flatMap fun ix =>
    let a := ix + (gridX + 1) * iy
    let b := ix + (gridX + 1) * (iy + 1)
    let c := (ix + 1) + (gridX + 1) * (iy + 1)
    let d := (ix + 1) + (gridX + 1) * iy
    [(a, b, d), (b, c, d)]

/-- A 3-vector of rationals. -/
abbrev Vec3 := ℚ × ℚ × ℚ

def vadd (a b : Vec3) : Vec3 := (a.1 + b.1, a.2.1 + b.2.1, a.2.2 + b.2.2)

def vsub (a b : Vec3) : Vec3 := (a.1 - b.1, a.2.1 - b.2.1, a.2.2 - b.2.2)

def cross (a b : Vec3) : Vec3 :=
  (a.2.1 * b.2.2 - a.2.2 * b.2.1, a.2.2 * b.1 - a.1 * b.2.2, a.1 * b.2.1 - a.2.1 * b.1)

/-- The vertex positions of the displaced plane: `PlaneGeometry` positions
with the Z coordinate overwritten by `displaceHeight` at the vertex's UV
(the `positions.setZ(i, heightVal)` loop, lines 309-319). -/
def displacedPositions (imgWidth imgHeight : ℕ) (data : List ℕ)
    (pw ph : ℚ) (gridX gridY : ℕ) : List Vec3 :=
  (planeVertices gridX gridY).map fun p =>
    ((p.1 : ℚ) * (pw / (gridX : ℚ)) - pw / 2,
     ph / 2 - (p.2 : ℚ) * (ph / (gridY : ℚ)),
     displaceHeight data imgWidth imgHeight (vertexU gridX p.1) (vertexV gridY p.2))

/-- Add a vector into slot `i` of a list of accumulators. -/
def addAt (l : List Vec3) (i : ℕ) (v : Vec3) : List Vec3 :=
  l.set i (vadd (l.getD i (0, 0, 0)) v)

/-- `geometry.computeVertexNormals()` (three.js r150) on an indexed
geometry: zero all normals, then for every triangle `(a, b, c)` add the
face normal `(pC - pB) × (pA - pB)` into the three vertex slots.  (The
final per-vertex step of three.js divides each accumulated vector by its
Euclidean length; that is a pointwise function of the value computed here,
so equality of these accumulators entails equality of the rendered
normals.) -/
def accumNormals (pos : List Vec3) (tris : List (ℕ × ℕ × ℕ)) : List Vec3 :=
  tris.foldl
    (fun ns t =>
      let pA := pos.getD t.1 (0, 0, 0)
      let pB := pos.getD t.2.1 (0, 0, 0)
      let pC := pos.getD t.2.2 (0, 0, 0)
      let n := cross (vsub pC pB) (vsub pA pB)
      addAt (addAt (addAt ns t.1 n) t.2.1 n) t.2.2 n)
    (List.replicate pos.length (0, 0, 0))

/-- The built mesh geometry: displaced vertex positions plus recomputed
(unnormalized) vertex normals. -/
structure BuiltMesh where
  positions : List Vec3
  normals : List Vec3
deriving Repr, DecidableEq

/-- The MeshBuilder portion of `create3DFromImage` (lines 275-320): plane
sizing, segmentation, `PlaneGeometry`, displacement, normal
recomputation. -/
def buildMesh (imgWidth imgHeight : ℕ) (data : List ℕ) : BuiltMesh :=
  let ps := planeSize imgWidth imgHeight
  let gridX := segCount ps.1
  let gridY := segCount ps.2
  let pos := displacedPositions imgWidth imgHeight data ps.1 ps.2 gridX gridY
  ⟨pos, accumNormals pos (planeTriangles gridX gridY)⟩

/-- The Z coordinates of the mesh vertices, in emission order. -/
def meshHeights (m : BuiltMesh) : List ℚ := m.positions.map fun p => p.2.2

/-- Number of grid vertices: `(widthSeg + 1) * (heightSeg + 1)`. -/
def vertexCount (imgWidth imgHeight : ℕ) : ℕ :=
  (segCount (planeSize imgWidth imgHeight).1 + 1) *
    (segCount (planeSize imgWidth imgHeight).2 + 1)

/-! ### Session state and lifecycle (from `src/unnamed/part_001`)

The module-level mutable variables `renderer`, `mesh3D`, `animationId`
become an explicit `SceneState`; the side effects of teardown and setup
are recorded as an `Action` trace so that their order is provable. -/

/-- A live WebGL renderer handle; `attached` records whether its canvas is
in the DOM (`renderer.domElement.parentNode` non-null). -/
structure Renderer where
  id : ℕ
  attached : Bool
deriving Repr, DecidableEq

/-- Observable side effects of the scene lifecycle. -/
inductive SceneEffect where
  | cancelAnimation (id : ℕ)
  | disposeRenderer (id : ℕ)
  | detachCanvas (id : ℕ)
  | createRenderer (id : ℕ)
  | startLoop (rendererId : ℕ)
deriving Repr, DecidableEq

/-- The mutable scene globals of `src/unnamed/part_001`. -/
structure SceneState where
  animationId : Option ℕ
  renderer : Option Renderer
  mesh3D : Option BuiltMesh
  nextId : ℕ
deriving Repr, DecidableEq

/-- `clearThreeScene()` (lines 52-68): cancel a pending animation frame,
dispose the renderer and remove its canvas from the DOM when attached,
null out `renderer` and `mesh3D` (the code also nulls `scene`, `camera`
and `controls`, which are not modelled separately). -/
def clearThreeScene (s : SceneState) : SceneState × List SceneEffect :=
  let cancelActs := match s.animationId with
    | some aid => [SceneEffect.cancelAnimation aid]
    | none => []
  let disposeActs := match s.renderer with
    | some r =>
        SceneEffect.disposeRenderer r.id ::
          (if r.attached then [SceneEffect.detachCanvas r.id] else [])
    | none => []
  ({ s with animationId := none, renderer := none, mesh3D := none },
   cancelActs ++ disposeActs)

/-- The uploaded image as the converter sees it; `resample` stands for the
browser's `drawImage` + `getImageData` at a requested target size
(platform-provided resampling, not repository code). -/
structure UploadedImage where
  naturalWidth : ℕ
  naturalHeight : ℕ
  resample : ℕ → ℕ → List ℕ

/-- The depth-edit canvas (`depthCanvas` / `depthCtx` contents). -/
structure DepthCanvas where
  width : ℕ
  height : ℕ
  data : List ℕ
deriving Repr, DecidableEq

/-- Depth-source selection of `create3DFromImage` (lines 242-273): when
`hasEdited` holds, the canvas data is used as-is; otherwise the uploaded
image is downscaled, drawn, and run through the grayscale pass. -/
def convertDepthSource (hasEdited : Bool) (canvas : DepthCanvas)
    (img : UploadedImage) : ℕ × ℕ × List ℕ :=
  if hasEdited then (canvas.width, canvas.height, canvas.data)
  else
    let dims := downscaleDims img.naturalWidth img.naturalHeight
    (dims.1, dims.2, computeLuminanceData (img.resample dims.1 dims.2))

/-- `create3DFromImage()` (lines 239-364): select the depth source, tear
down the previous scene with `clearThreeScene`, then create the renderer,
build and attach the displaced mesh, and start the animation loop.  The
returned trace lists teardown effects before setup effects, in program
order. -/
def create3DFromImage (s : SceneState) (hasEdited : Bool)
    (canvas : DepthCanvas) (img : UploadedImage) : SceneState × List SceneEffect :=
  let src := convertDepthSource hasEdited canvas img
  let cleared := clearThreeScene s
  let rid := s.nextId
  let mesh := buildMesh src.1 src.2.1 src.2.2
  ({ cleared.1 with
      renderer := some ⟨rid, true⟩
      mesh3D := some mesh
      animationId := some (rid + 1)
      nextId := rid + 2 },
   cleared.2 ++ [SceneEffect.createRenderer rid, SceneEffect.startLoop rid])

/-- `resetAll()` (lines 34-50): reset the UI state and tear down the scene
via `clearThreeScene` (UI-only bookkeeping is out of scope). -/
def resetAll (s : SceneState) : SceneState × List SceneEffect :=
  clearThreeScene s

/-- The error taxonomy for exports: no live renderer / mesh exists. -/
inductive ExportError where
  | noLiveRenderer
  | noLiveMesh
deriving Repr, DecidableEq

/-- The `downloadPNGBtn` click handler (lines 367-376): aborts when no
renderer exists (`if (!renderer) return;`), otherwise captures the canvas
as PNG bytes.  `snapshot` stands for the browser's `canvas.toBlob`. -/
def downloadPNGClick (snapshot : Renderer → List ℕ) (s : SceneState) :
    Except ExportError (List ℕ) :=
  match s.renderer with
  | none => .error .noLiveRenderer
  | some r => .ok (snapshot r)

/-- The `downloadGLBBtn` click handler (lines 379-396): aborts when no
mesh exists (`if (!mesh3D) return;`), otherwise serializes the mesh to
GLB bytes.  `serialize` stands for three.js `GLTFExporter.parse`. -/
def downloadGLBClick (serialize : BuiltMesh → List ℕ) (s : SceneState) :
    Except ExportError (List ℕ) :=
  match s.mesh3D with
  | none => .error .noLiveMesh
  | some m => .ok (serialize m)

/-! ### The depth-edit pointer state machine (lines 158-205) -/

/-- Pointer events delivered to the edit canvas. -/
inductive PointerEv where
  | down (x y : ℚ)
  | move (x y : ℚ)
  | up
  | leave
deriving Repr, DecidableEq

/-- Editing state: the `isDrawing` closure variable, the module-level
`hasEdited` flag, and the accumulated paint operations (centers of the
filled circles drawn by `draw(ev)`). -/
structure EditState where
  isDrawing : Bool
  hasEdited : Bool
  paints : List (ℚ × ℚ)
deriving Repr, DecidableEq

/-- One pointer event (lines 187-195): `pointerdown` starts drawing and
paints; `pointermove` paints only while drawing; `pointerup` stops drawing
and sets `hasEdited`; `pointerleave` only stops drawing. -/
def editStep (s : EditState) : PointerEv → EditState
  | .down x y => { s with isDrawing := true, paints := s.paints ++ [(x, y)] }
  | .move x y => if s.isDrawing then { s with paints := s.paints ++ [(x, y)] } else s
  | .up => { s with isDrawing := false, hasEdited := true }
  | .leave => { s with isDrawing := false }

/-- Run a sequence of pointer events. -/
def runEdit (s : EditState) (evs : List PointerEv) : EditState :=
  evs.foldl editStep s

/-- The state on entering edit mode: not drawing, nothing authored yet. -/
def initEditState : EditState := ⟨false, false, []⟩

/-! ### Helper lemmas -/

theorem uint8Clamp_le_255 (q : ℚ) : uint8Clamp q ≤ 255 := by
  unfold uint8Clamp
  split
  · omega
  next h0 =>
    split
    · omega
    next h255 =>
      have hq : q < 255 := not_le.mp h255
      have hf : ⌊q⌋ < (255 : ℤ) := by
        have h1 : (⌊q⌋ : ℚ) ≤ q := Int.floor_le q
        exact_mod_cast lt_of_le_of_lt h1 hq
      have hfn : (⌊q⌋).toNat ≤ 254 := by omega
      split
      · omega
      · split
        · omega
        · split <;> omega

theorem getD_cons4 (a b c d : ℕ) (l : List ℕ) (n : ℕ) :
    (a :: b :: c :: d :: l).getD (n + 4) 0 = l.getD n 0 := by
  simp [List.getD_cons_succ]

/-- The grayscale pass rewrites the red channel of pixel `k` to the
clamped luminance of the original pixel `k`. -/
theorem computeLuminanceData_getD (k : ℕ) :
    ∀ l : List ℕ, 4 * (k + 1) ≤ l.length →
      (computeLuminanceData l).getD (4 * k) 0
        = uint8Clamp
            (luminance (l.getD (4 * k) 0) (l.getD (4 * k + 1) 0) (l.getD (4 * k + 2) 0)) := by
  induction k with
  | zero =>
    intro l hl
    match l, hl with
    | r :: g :: b :: a :: rest, _ => simp [computeLuminanceData]
  | succ k ih =>
    intro l hl
    match l, hl with
    | r :: g :: b :: a :: rest, hl =>
      have hrest : 4 * (k + 1) ≤ rest.length := by
        simp only [List.length_cons] at hl
        omega
      have e0 : 4 * (k + 1) = 4 * k + 4 := by ring
      calc (computeLuminanceData (r :: g :: b :: a :: rest)).getD (4 * (k + 1)) 0
          = (computeLuminanceData rest).getD (4 * k) 0 := by
            rw [e0]
            exact getD_cons4 _ _ _ _ _ _
        _ = uint8Clamp (luminance (rest.getD (4 * k) 0) (rest.getD (4 * k + 1) 0)
              (rest.getD (4 * k + 2) 0)) := ih rest hrest
        _ = uint8Clamp (luminance ((r :: g :: b :: a :: rest).getD (4 * (k + 1)) 0)
              ((r :: g :: b :: a :: rest).getD (4 * (k + 1) + 1) 0)
              ((r :: g :: b :: a :: rest).getD (4 * (k + 1) + 2) 0)) := by
            rw [e0]
            rw [show 4 * k + 4 + 1 = (4 * k + 1) + 4 from by ring,
                show 4 * k + 4 + 2 = (4 * k + 2) + 4 from by ring,
                getD_cons4, getD_cons4, getD_cons4]

theorem samplePx_nonneg (W : ℕ) (u : ℚ) (hW : 1 ≤ W) (hu : 0 ≤ u) :
    0 ≤ samplePx W u := by
  apply Int.le_floor.mpr
  have h1 : (1 : ℚ) ≤ (W : ℚ) := by exact_mod_cast hW
  push_cast
  nlinarith

theorem samplePx_le (W : ℕ) (u : ℚ) (hW : 1 ≤ W) (hu1 : u ≤ 1) (hu0 : 0 ≤ u) :
    samplePx W u ≤ (W : ℤ) - 1 := by
  have h1 : (1 : ℚ) ≤ (W : ℚ) := by exact_mod_cast hW
  have h2 : u * ((W : ℚ) - 1) ≤ (W : ℚ) - 1 := by nlinarith
  calc samplePx W u ≤ ⌊(W : ℚ) - 1⌋ := Int.floor_le_floor h2
    _ = (W : ℤ) - 1 := by
        rw [show (W : ℚ) - 1 = (((W : ℤ) - 1 : ℤ) : ℚ) by push_cast; ring, Int.floor_intCast]

theorem samplePy_nonneg (H : ℕ) (v : ℚ) (hH : 1 ≤ H) (hv : v ≤ 1) :
    0 ≤ samplePy H v := by
  apply Int.le_floor.mpr
  have h1 : (1 : ℚ) ≤ (H : ℚ) := by exact_mod_cast hH
  push_cast
  nlinarith

theorem samplePy_le (H : ℕ) (v : ℚ) (hH : 1 ≤ H) (hv1 : v ≤ 1) (hv0 : 0 ≤ v) :
    samplePy H v ≤ (H : ℤ) - 1 := by
  have h1 : (1 : ℚ) ≤ (H : ℚ) := by exact_mod_cast hH
  have h2 : (1 - v) * ((H : ℚ) - 1) ≤ (H : ℚ) - 1 := by nlinarith
  calc samplePy H v ≤ ⌊(H : ℚ) - 1⌋ := Int.floor_le_floor h2
    _ = (H : ℤ) - 1 := by
        rw [show (H : ℚ) - 1 = (((H : ℤ) - 1 : ℤ) : ℚ) by push_cast; ring, Int.floor_intCast]

/-- The sampled pixel slot `py * W + px` lies in `[0, W*H)`. -/
theorem sampleSlot_bounds (W H : ℕ) (u v : ℚ) (hW : 1 ≤ W) (hH : 1 ≤ H)
    (hu0 : 0 ≤ u) (hu1 : u ≤ 1) (hv0 : 0 ≤ v) (hv1 : v ≤ 1) :
    0 ≤ samplePy H v * W + samplePx W u ∧
      samplePy H v * W + samplePx W u < (W : ℤ) * H := by
  have hpx0 := samplePx_nonneg W u hW hu0
  have hpx := samplePx_le W u hW hu1 hu0
  have hpy0 := samplePy_nonneg H v hH hv1
  have hpy := samplePy_le H v hH hv1 hv0
  constructor
  · have := mul_nonneg hpy0 (by positivity : (0 : ℤ) ≤ (W : ℤ))
    omega
  · have h1 : samplePy H v * W ≤ ((H : ℤ) - 1) * W :=
      mul_le_mul_of_nonneg_right hpy (by positivity)
    nlinarith

theorem mkSolid_getD (r g b : ℕ) (k : ℕ) :
    ∀ n : ℕ, k < n → (mkSolid r g b n).getD (4 * k) 0 = r := by
  induction k with
  | zero =>
    intro n hn
    match n, hn with
    | n + 1, _ => simp [mkSolid]
  | succ k ih =>
    intro n hn
    match n, hn with
    | n + 1, hn =>
      have e0 : 4 * (k + 1) = 4 * k + 4 := by ring
      calc (mkSolid r g b (n + 1)).getD (4 * (k + 1)) 0
          = (mkSolid r g b n).getD (4 * k) 0 := by rw [e0]; exact getD_cons4 _ _ _ _ _ _
        _ = r := ih n (by omega)

theorem mkSolid_length (r g b : ℕ) : ∀ n : ℕ, (mkSolid r g b n).length = 4 * n := by
  intro n
  induction n with
  | zero => rfl
  | succ n ih => simp [mkSolid, ih]; ring

theorem computeLuminanceData_mkSolid (r g b : ℕ) : ∀ n : ℕ,
    computeLuminanceData (mkSolid r g b n)
      = mkSolid (uint8Clamp (luminance r g b)) (uint8Clamp (luminance r g b))
          (uint8Clamp (luminance r g b)) n := by
  intro n
  induction n with
  | zero => rfl
  | succ n ih => simp [mkSolid, computeLuminanceData, ih]

/-- On a solid-color depth buffer of `W*H` pixels, displacement of any
in-range UV yields `(1 - c/255) * 0.5`. -/
theorem displaceHeight_mkSolid (W H c : ℕ) (u v : ℚ) (hW : 1 ≤ W) (hH : 1 ≤ H)
    (hu0 : 0 ≤ u) (hu1 : u ≤ 1) (hv0 : 0 ≤ v) (hv1 : v ≤ 1) :
    displaceHeight (mkSolid c c c (W * H)) W H u v = (1 - (c : ℚ) / 255) * 0.5 := by
  obtain ⟨hs0, hs1⟩ := sampleSlot_bounds W H u v hW hH hu0 hu1 hv0 hv1
  unfold displaceHeight readByte
  have hidx0 : 0 ≤ sampleIdx W H u v := by
    unfold sampleIdx; positivity
  rw [if_pos hidx0]
  have htn : (sampleIdx W H u v).toNat
      = 4 * (samplePy H v * (W : ℤ) + samplePx W u).toNat := by
    unfold sampleIdx; omega
  have hk : (samplePy H v * (W : ℤ) + samplePx W u).toNat < W * H := by
    have : samplePy H v * (W : ℤ) + samplePx W u < ((W * H : ℕ) : ℤ) := by push_cast; exact hs1
    omega
  rw [htn, mkSolid_getD c c c _ _ hk]

theorem planeVertices_length (gx gy : ℕ) :
    (planeVertices gx gy).length = (gx + 1) * (gy + 1) := by
  unfold planeVertices
  rw [List.length_flatMap]
  have h : (List.map (List.length ∘ fun iy => List.map (fun ix => (ix, iy)) (List.range (gx + 1)))
      (List.range (gy + 1))) = List.replicate (gy + 1) (gx + 1) := by
    apply List.eq_replicate_iff.mpr
    constructor
    · simp
    · intro b hb
      simp [Function.comp] at hb
      obtain ⟨iy, hiy, rfl⟩ := hb
      simp
  rw [h, List.sum_replicate, smul_eq_mul, Nat.mul_comm]

theorem mem_planeVertices (gx gy : ℕ) (p : ℕ × ℕ) (hp : p ∈ planeVertices gx gy) :
    p.1 ≤ gx ∧ p.2 ≤ gy := by
  unfold planeVertices at hp
  simp [List.mem_flatMap, List.mem_map, List.mem_range] at hp
  obtain ⟨iy, hiy, ix, hix, rfl⟩ := hp
  omega

theorem segCount_pos (d : ℚ) : 1 ≤ segCount d := by
  unfold segCount
  omega

theorem vertexU_bounds (gx ix : ℕ) (hgx : 1 ≤ gx) (hix : ix ≤ gx) :
    0 ≤ vertexU gx ix ∧ vertexU gx ix ≤ 1 := by
  unfold vertexU
  have hgx0 : (0 : ℚ) < (gx : ℚ) := by exact_mod_cast hgx
  constructor
  · positivity
  · rw [div_le_one hgx0]
    exact_mod_cast hix

theorem vertexV_bounds (gy iy : ℕ) (hgy : 1 ≤ gy) (hiy : iy ≤ gy) :
    0 ≤ vertexV gy iy ∧ vertexV gy iy ≤ 1 := by
  unfold vertexV
  have hgy0 : (0 : ℚ) < (gy : ℚ) := by exact_mod_cast hgy
  have h1 : (iy : ℚ) / (gy : ℚ) ≤ 1 := by
    rw [div_le_one hgy0]
    exact_mod_cast hiy
  have h0 : (0 : ℚ) ≤ (iy : ℚ) / (gy : ℚ) := by positivity
  constructor <;> linarith

/-- All vertex heights of a mesh built from a solid-color depth buffer are
`(1 - c/255) * 0.5`. -/
theorem meshHeights_mkSolid (W H c : ℕ) (hW : 1 ≤ W) (hH : 1 ≤ H) :
    meshHeights (buildMesh W H (mkSolid c c c (W * H)))
      = List.replicate (vertexCount W H) ((1 - (c : ℚ) / 255) * 0.5) := by
  apply List.eq_replicate_iff.mpr
  constructor
  · simp only [meshHeights, buildMesh, displacedPositions, List.length_map, vertexCount]
    exact planeVertices_length _ _
  · intro z hz
    simp only [meshHeights, buildMesh, displacedPositions, List.map_map, List.mem_map,
      Function.comp] at hz
    obtain ⟨p, hp, rfl⟩ := hz
    obtain ⟨hix, hiy⟩ := mem_planeVertices _ _ p hp
    obtain ⟨hu0, hu1⟩ := vertexU_bounds _ _ (segCount_pos _) hix
    obtain ⟨hv0, hv1⟩ := vertexV_bounds _ _ (segCount_pos _) hiy
    exact displaceHeight_mkSolid W H c _ _ hW hH hu0 hu1 hv0 hv1

/-! ### Claim theorems -/

/-- C1: for every vertex UV `(u, v)` in `[0,1]²`, the displacement step
samples `px = floor(u*(imgWidth-1))`, `py = floor((1-v)*(imgHeight-1))`
(V inverted), reads the depth byte at `(py*imgWidth + px)*4`, and sets the
height to `(1 - depthSample) * 0.5`; consequently a fully black source
image yields uniform vertex height `1/2` over the whole built grid, and a
fully white source image yields uniform height `0`. -/
theorem displacement_law (W H : ℕ) (data : List ℕ) (u v : ℚ)
    (hW : 1 ≤ W) (hH : 1 ≤ H) (hu0 : 0 ≤ u) (hu1 : u ≤ 1) (hv0 : 0 ≤ v) (hv1 : v ≤ 1) :
    displaceHeight data W H u v
      = (1 - (readByte data
            ((⌊(1 - v) * ((H : ℚ) - 1)⌋ * W + ⌊u * ((W : ℚ) - 1)⌋) * 4) : ℚ) / 255)
          * (1 / 2) ∧
    meshHeights (buildMesh W H (computeLuminanceData (mkSolid 0 0 0 (W * H))))
      = List.replicate (vertexCount W H) (1 / 2) ∧
    meshHeights (buildMesh W H (computeLuminanceData (mkSolid 255 255 255 (W * H))))
      = List.replicate (vertexCount W H) 0 := by
  refine ⟨?_, ?_, ?_⟩
  · simp only [displaceHeight, sampleIdx, samplePx, samplePy]
    norm_num
  · rw [computeLuminanceData_mkSolid]
    have hc : uint8Clamp (luminance 0 0 0) = 0 := by norm_num [luminance, uint8Clamp]
    rw [hc, meshHeights_mkSolid W H 0 hW hH]
    norm_num
  · rw [computeLuminanceData_mkSolid]
    have hc : uint8Clamp (luminance 255 255 255) = 255 := by norm_num [luminance, uint8Clamp]
    rw [hc, meshHeights_mkSolid W H 255 hW hH]
    norm_num

/-- Witness for C1 at `W = 2`, `H = 3`, `u = 0`, `v = 1`. -/
theorem displacement_law_witness :
    (1 ≤ 2 ∧ 1 ≤ 3 ∧ (0 : ℚ) ≤ 0 ∧ (0 : ℚ) ≤ 1 ∧ (1 : ℚ) ≤ 1) ∧
    (displaceHeight [] 2 3 0 1
      = (1 - (readByte []
            ((⌊(1 - 1) * ((3 : ℚ) - 1)⌋ * 2 + ⌊0 * ((2 : ℚ) - 1)⌋) * 4) : ℚ) / 255)
          * (1 / 2) ∧
    meshHeights (buildMesh 2 3 (computeLuminanceData (mkSolid 0 0 0 (2 * 3))))
      = List.replicate (vertexCount 2 3) (1 / 2) ∧
    meshHeights (buildMesh 2 3 (computeLuminanceData (mkSolid 255 255 255 (2 * 3))))
      = List.replicate (vertexCount 2 3) 0) :=
  ⟨⟨by decide, by decide, le_refl 0, zero_le_one, le_refl 1⟩,
    displacement_law 2 3 [] 0 1 (by decide) (by decide)
      (le_refl 0) zero_le_one zero_le_one (le_refl 1)⟩

/-- C2 counterexample: the claim says every computed depth sample equals
the pixel's luminance divided by 255; but the luminance is stored through
a `Uint8ClampedArray`, which rounds it to a whole byte.  For the valid
1×1 buffer with pixel `(1, 0, 0, 255)` the luminance is `0.299`, the
stored byte is `0`, and the sample is `0 ≠ 0.299/255`. -/
theorem luminance_sample_quantized :
    (computeLuminanceField ⟨1, 1, [1, 0, 0, 255]⟩).sample 0 0 ≠ luminance 1 0 0 / 255 ∧
    (computeLuminanceField ⟨1, 1, [1, 0, 0, 255]⟩).sample 0 0 = 0 := by
  norm_num [computeLuminanceField, DepthField.sample, computeLuminanceData, luminance,
    uint8Clamp]

/-- C2 (amended): for every valid PixelBuffer, the computed depth field
keeps the input's width and height, and every sample equals the pixel's
luminance `0.299*R + 0.587*G + 0.114*B` rounded to a byte (the
`Uint8ClampedArray` store) and divided by 255, a value in `[0, 1]`. -/
theorem computeLuminance_field_spec (pb : PixelBuffer) (x y : ℕ)
    (hx : x < pb.width) (hy : y < pb.height)
    (hlen : pb.data.length = pb.width * pb.height * 4) :
    (computeLuminanceField pb).width = pb.width ∧
    (computeLuminanceField pb).height = pb.height ∧
    (computeLuminanceField pb).sample x y
      = (uint8Clamp (luminance (pb.data.getD ((y * pb.width + x) * 4) 0)
          (pb.data.getD ((y * pb.width + x) * 4 + 1) 0)
          (pb.data.getD ((y * pb.width + x) * 4 + 2) 0)) : ℚ) / 255 ∧
    0 ≤ (computeLuminanceField pb).sample x y ∧
    (computeLuminanceField pb).sample x y ≤ 1 := by
  have hk : y * pb.width + x < pb.width * pb.height := by
    have h1 : y * pb.width + x < (y + 1) * pb.width := by
      calc y * pb.width + x < y * pb.width + pb.width := by omega
        _ = (y + 1) * pb.width := by ring
    have h2 : (y + 1) * pb.width ≤ pb.height * pb.width :=
      Nat.mul_le_mul_right _ (by omega)
    calc y * pb.width + x < (y + 1) * pb.width := h1
      _ ≤ pb.height * pb.width := h2
      _ = pb.width * pb.height := Nat.mul_comm _ _
  have hlen2 : 4 * ((y * pb.width + x) + 1) ≤ pb.data.length := by
    rw [hlen]
    generalize hA : pb.width * pb.height = A at hk
    generalize hkk : y * pb.width + x = k at hk ⊢
    omega
  have hmain := computeLuminanceData_getD (y * pb.width + x) pb.data hlen2
  have hsample : (computeLuminanceField pb).sample x y
      = ((computeLuminanceData pb.data).getD (4 * (y * pb.width + x)) 0 : ℚ) / 255 := by
    simp [computeLuminanceField, DepthField.sample, Nat.mul_comm]
  refine ⟨rfl, rfl, ?_, ?_, ?_⟩
  · rw [hsample, hmain]
    rw [show (y * pb.width + x) * 4 = 4 * (y * pb.width + x) from Nat.mul_comm _ _]
  · rw [hsample]
    positivity
  · rw [hsample, hmain]
    rw [div_le_one (by norm_num : (0 : ℚ) < 255)]
    exact_mod_cast uint8Clamp_le_255 _

/-- Witness for C2 (amended) on a 1×1 buffer with pixel `(10, 20, 30, 255)`. -/
theorem computeLuminance_field_spec_witness :
    (0 < 1 ∧ (⟨1, 1, [10, 20, 30, 255]⟩ : PixelBuffer).data.length = 1 * 1 * 4) ∧
    ((computeLuminanceField ⟨1, 1, [10, 20, 30, 255]⟩).width = 1 ∧
     (computeLuminanceField ⟨1, 1, [10, 20, 30, 255]⟩).height = 1 ∧
     (computeLuminanceField ⟨1, 1, [10, 20, 30, 255]⟩).sample 0 0
       = (uint8Clamp (luminance (([10, 20, 30, 255] : List ℕ).getD ((0 * 1 + 0) * 4) 0)
           (([10, 20, 30, 255] : List ℕ).getD ((0 * 1 + 0) * 4 + 1) 0)
           (([10, 20, 30, 255] : List ℕ).getD ((0 * 1 + 0) * 4 + 2) 0)) : ℚ) / 255 ∧
     0 ≤ (computeLuminanceField ⟨1, 1, [10, 20, 30, 255]⟩).sample 0 0 ∧
     (computeLuminanceField ⟨1, 1, [10, 20, 30, 255]⟩).sample 0 0 ≤ 1) :=
  ⟨⟨by decide, rfl⟩,
    computeLuminance_field_spec ⟨1, 1, [10, 20, 30, 255]⟩ 0 0 (by decide) (by decide) rfl⟩

/-- C3 counterexample: at aspect 2:1 (image 512×256) the plane is
`(2, 1)`; its longer side has length 2, not 1, so the claim's parenthesis
"the longer side is normalized to unit length" fails — it is the shorter
side that is normalized to 1. -/
theorem plane_longer_side_not_unit :
    planeSize 512 256 = (2, 1) ∧
    max (planeSize 512 256).1 (planeSize 512 256).2 ≠ 1 ∧
    min (planeSize 512 256).1 (planeSize 512 256).2 = 1 := by
  norm_num [planeSize, aspectOf]

/-- C3 (amended): `planeWidth = aspect≥1 ? aspect : 1`,
`planeHeight = aspect≥1 ? 1 : 1/aspect` — the *shorter* side is
normalized to unit length and the aspect ratio is preserved; aspect 2:1
gives `(2, 1)` and aspect 1:2 gives `(1, 2)`. -/
theorem plane_sizing_spec (W H : ℕ) (hW : 0 < W) (hH : 0 < H) :
    planeSize W H = (if 1 ≤ aspectOf W H then aspectOf W H else 1,
                     if 1 ≤ aspectOf W H then 1 else 1 / aspectOf W H) ∧
    min (planeSize W H).1 (planeSize W H).2 = 1 ∧
    (planeSize W H).2 * aspectOf W H = (planeSize W H).1 ∧
    planeSize 512 256 = (2, 1) ∧ planeSize 256 512 = (1, 2) := by
  have ha0 : 0 < aspectOf W H := by
    unfold aspectOf
    positivity
  refine ⟨rfl, ?_, ?_, by norm_num [planeSize, aspectOf], by norm_num [planeSize, aspectOf]⟩
  · by_cases h : 1 ≤ aspectOf W H
    · simp [planeSize, h]
    · push_neg at h
      have h2 : 1 ≤ (aspectOf W H)⁻¹ := by
        rw [one_le_inv_iff₀]
        exact ⟨ha0, le_of_lt h⟩
      simp [planeSize, not_le.mpr h]
      exact h2
  · by_cases h : 1 ≤ aspectOf W H
    · simp [planeSize, h]
    · simp [planeSize, h]
      field_simp

/-- Witness for C3 (amended) at a 512×256 image. -/
theorem plane_sizing_spec_witness :
    (0 < 512 ∧ 0 < 256) ∧
    (planeSize 512 256 = (if 1 ≤ aspectOf 512 256 then aspectOf 512 256 else 1,
                          if 1 ≤ aspectOf 512 256 then 1 else 1 / aspectOf 512 256) ∧
     min (planeSize 512 256).1 (planeSize 512 256).2 = 1 ∧
     (planeSize 512 256).2 * aspectOf 512 256 = (planeSize 512 256).1 ∧
     planeSize 512 256 = (2, 1) ∧ planeSize 256 512 = (1, 2)) :=
  ⟨⟨by decide, by decide⟩, plane_sizing_spec 512 256 (by decide) (by decide)⟩

/-- C4: when the authored (painted) field exists (`hasEdited`), it fully
replaces the computed luminance field for convert-time sampling: the
selected depth source is exactly the canvas data, and the built mesh does
not depend on the uploaded image's pixels at all (no blending). -/
theorem authored_field_priority (canvas : DepthCanvas) (img img2 : UploadedImage)
    (s : SceneState) :
    convertDepthSource true canvas img = (canvas.width, canvas.height, canvas.data) ∧
    convertDepthSource true canvas img = convertDepthSource true canvas img2 ∧
    (create3DFromImage s true canvas img).1.mesh3D
      = (create3DFromImage s true canvas img2).1.mesh3D :=
  ⟨rfl, rfl, rfl⟩

/-- C5 counterexample: the claim says downscaled dimensions are "at least
1", but the code applies no lower clamp: a valid 1×1000 image scales by
`min(512/1, 512/1000) = 0.512` and `floor(1 * 0.512) = 0`. -/
theorem downscale_zero_width :
    downscaleDims 1 1000 = (0, 512) ∧ ¬ 1 ≤ (downscaleDims 1 1000).1 := by
  constructor
  · norm_num [downscaleDims, downscaleScale]
    decide
  · norm_num [downscaleDims, downscaleScale]

/-- C5 (amended): if either dimension exceeds 512 both are scaled by the
single factor `min(512/w, 512/h)` and floored; images within the maximum
are left at native size; the results are ≥ 1 whenever `h ≤ 512*w`
(for the width) and `w ≤ 512*h` (for the height) — there is no explicit
`≥ 1` clamp, so more extreme aspect ratios produce a 0 dimension. -/
theorem downscale_spec (w h : ℕ) (hw : 0 < w) (hh : 0 < h) :
    (¬(512 < w ∨ 512 < h) → downscaleDims w h = (w, h)) ∧
    ((512 < w ∨ 512 < h) → downscaleDims w h
        = ((⌊(w : ℚ) * min (512 / (w : ℚ)) (512 / (h : ℚ))⌋).toNat,
           (⌊(h : ℚ) * min (512 / (w : ℚ)) (512 / (h : ℚ))⌋).toNat)) ∧
    (h ≤ 512 * w → 1 ≤ (downscaleDims w h).1) ∧
    (w ≤ 512 * h → 1 ≤ (downscaleDims w h).2) := by
  have hwq : (0 : ℚ) < w := by exact_mod_cast hw
  have hhq : (0 : ℚ) < h := by exact_mod_cast hh
  have hfix : ∀ n : ℕ, ((⌊(n : ℚ) * 1⌋).toNat) = n := by
    intro n
    rw [mul_one]
    simp [Int.floor_natCast]
  refine ⟨?_, ?_, ?_, ?_⟩
  · intro hc
    simp only [downscaleDims, downscaleScale, if_neg hc]
    rw [hfix, hfix]
  · intro hc
    simp only [downscaleDims, downscaleScale, if_pos hc]
  · intro hle
    by_cases hc : 512 < w ∨ 512 < h
    · simp only [downscaleDims, downscaleScale, if_pos hc]
      have h1 : (1 : ℚ) ≤ (w : ℚ) * min (512 / (w : ℚ)) (512 / (h : ℚ)) := by
        rcases min_cases (512 / (w : ℚ)) (512 / (h : ℚ)) with ⟨heq, _⟩ | ⟨heq, _⟩ <;> rw [heq]
        · have e : (w : ℚ) * (512 / w) = 512 := by field_simp
          rw [e]
          norm_num
        · have e : (w : ℚ) * (512 / h) = 512 * w / h := by ring
          rw [e, le_div_iff₀ hhq, one_mul]
          exact_mod_cast hle
      have h2 : 1 ≤ ⌊(w : ℚ) * min (512 / (w : ℚ)) (512 / (h : ℚ))⌋ :=
        Int.le_floor.mpr (by exact_mod_cast h1)
      omega
    · simp only [downscaleDims, downscaleScale, if_neg hc]
      rw [hfix]
      omega
  · intro hle
    by_cases hc : 512 < w ∨ 512 < h
    · simp only [downscaleDims, downscaleScale, if_pos hc]
      have h1 : (1 : ℚ) ≤ (h : ℚ) * min (512 / (w : ℚ)) (512 / (h : ℚ)) := by
        rcases min_cases (512 / (w : ℚ)) (512 / (h : ℚ)) with ⟨heq, _⟩ | ⟨heq, _⟩ <;> rw [heq]
        · have e : (h : ℚ) * (512 / w) = 512 * h / w := by ring
          rw [e, le_div_iff₀ hwq, one_mul]
          exact_mod_cast hle
        · have e : (h : ℚ) * (512 / h) = 512 := by field_simp
          rw [e]
          norm_num
      have h2 : 1 ≤ ⌊(h : ℚ) * min (512 / (w : ℚ)) (512 / (h : ℚ))⌋ :=
        Int.le_floor.mpr (by exact_mod_cast h1)
      omega
    · simp only [downscaleDims, downscaleScale, if_neg hc]
      rw [hfix]
      omega

/-- Witness for C5 (amended) at 1024×256. -/
theorem downscale_spec_witness :
    (0 < 1024 ∧ 0 < 256) ∧
    ((¬(512 < 1024 ∨ 512 < 256) → downscaleDims 1024 256 = (1024, 256)) ∧
     ((512 < 1024 ∨ 512 < 256) → downscaleDims 1024 256
         = ((⌊(1024 : ℚ) * min (512 / (1024 : ℚ)) (512 / (256 : ℚ))⌋).toNat,
            (⌊(256 : ℚ) * min (512 / (1024 : ℚ)) (512 / (256 : ℚ))⌋).toNat)) ∧
     (256 ≤ 512 * 1024 → 1 ≤ (downscaleDims 1024 256).1) ∧
     (1024 ≤ 512 * 256 → 1 ≤ (downscaleDims 1024 256).2)) :=
  ⟨⟨by decide, by decide⟩, downscale_spec 1024 256 (by decide) (by decide)⟩

/-- C6: building from the same depth source twice (or from any two prior
scene states) yields identical meshes — positions and normals included —
since the build is a pure function of the pixel data, with no hidden
random or retained state. -/
theorem mesh_build_deterministic (s1 s2 : SceneState) (hasEdited : Bool)
    (canvas : DepthCanvas) (img : UploadedImage) :
    (create3DFromImage s1 hasEdited canvas img).1.mesh3D
      = (create3DFromImage s2 hasEdited canvas img).1.mesh3D ∧
    (create3DFromImage (create3DFromImage s1 hasEdited canvas img).1 hasEdited canvas img).1.mesh3D
      = (create3DFromImage s1 hasEdited canvas img).1.mesh3D :=
  ⟨rfl, rfl⟩

/-- C7: `clearThreeScene` leaves no animation frame scheduled, no renderer
handle and no mesh referenced (same after `resetAll`); and a new
conversion's effect trace performs the full teardown of the previous
session — cancel, dispose, detach — strictly before creating the new
renderer and starting the new loop. -/
theorem teardown_before_build (s : SceneState) (hasEdited : Bool) (canvas : DepthCanvas)
    (img : UploadedImage) (r : Renderer) (aid : ℕ)
    (hr : s.renderer = some r) (ha : s.animationId = some aid) (hat : r.attached = true) :
    (clearThreeScene s).1.animationId = none ∧
    (clearThreeScene s).1.renderer = none ∧
    (clearThreeScene s).1.mesh3D = none ∧
    (resetAll s).1.animationId = none ∧
    (resetAll s).1.renderer = none ∧
    (create3DFromImage s hasEdited canvas img).2
      = [SceneEffect.cancelAnimation aid, SceneEffect.disposeRenderer r.id,
         SceneEffect.detachCanvas r.id, SceneEffect.createRenderer s.nextId,
         SceneEffect.startLoop s.nextId] := by
  simp [clearThreeScene, resetAll, create3DFromImage, hr, ha, hat]

/-- Witness for C7 at a live session (animation 7, attached renderer 5). -/
theorem teardown_before_build_witness :
    ((⟨some 7, some ⟨5, true⟩, none, 9⟩ : SceneState).renderer = some ⟨5, true⟩ ∧
     (⟨some 7, some ⟨5, true⟩, none, 9⟩ : SceneState).animationId = some 7 ∧
     (⟨5, true⟩ : Renderer).attached = true) ∧
    ((clearThreeScene ⟨some 7, some ⟨5, true⟩, none, 9⟩).1.animationId = none ∧
     (clearThreeScene ⟨some 7, some ⟨5, true⟩, none, 9⟩).1.renderer = none ∧
     (clearThreeScene ⟨some 7, some ⟨5, true⟩, none, 9⟩).1.mesh3D = none ∧
     (resetAll ⟨some 7, some ⟨5, true⟩, none, 9⟩).1.animationId = none ∧
     (resetAll ⟨some 7, some ⟨5, true⟩, none, 9⟩).1.renderer = none ∧
     (create3DFromImage ⟨some 7, some ⟨5, true⟩, none, 9⟩ false ⟨1, 1, [0, 0, 0, 255]⟩
        ⟨1, 1, fun _ _ => [0, 0, 0, 255]⟩).2
       = [SceneEffect.cancelAnimation 7, SceneEffect.disposeRenderer 5,
          SceneEffect.detachCanvas 5, SceneEffect.createRenderer 9,
          SceneEffect.startLoop 9]) :=
  ⟨⟨rfl, rfl, rfl⟩,
    teardown_before_build ⟨some 7, some ⟨5, true⟩, none, 9⟩ false ⟨1, 1, [0, 0, 0, 255]⟩
      ⟨1, 1, fun _ _ => [0, 0, 0, 255]⟩ ⟨5, true⟩ 7 rfl rfl rfl⟩

/-- C8: both export handlers fail (abort with no bytes, modelled as the
`ExportError` branch) when no live renderer/mesh exists, and produce
export bytes when one does. -/
theorem export_guards (snapshot : Renderer → List ℕ) (serialize : BuiltMesh → List ℕ)
    (s0 s1 : SceneState) (r : Renderer) (m : BuiltMesh)
    (h0r : s0.renderer = none) (h0m : s0.mesh3D = none)
    (h1r : s1.renderer = some r) (h1m : s1.mesh3D = some m) :
    downloadPNGClick snapshot s0 = .error .noLiveRenderer ∧
    downloadGLBClick serialize s0 = .error .noLiveMesh ∧
    downloadPNGClick snapshot s1 = .ok (snapshot r) ∧
    downloadGLBClick serialize s1 = .ok (serialize m) := by
  simp [downloadPNGClick, downloadGLBClick, h0r, h0m, h1r, h1m]

/-- Witness for C8 with a torn-down state and a live state. -/
theorem export_guards_witness :
    ((⟨none, none, none, 0⟩ : SceneState).renderer = none ∧
     (⟨none, none, none, 0⟩ : SceneState).mesh3D = none ∧
     (⟨some 1, some ⟨0, true⟩, some ⟨[], []⟩, 2⟩ : SceneState).renderer = some ⟨0, true⟩ ∧
     (⟨some 1, some ⟨0, true⟩, some ⟨[], []⟩, 2⟩ : SceneState).mesh3D = some ⟨[], []⟩) ∧
    (downloadPNGClick (fun _ => [0]) ⟨none, none, none, 0⟩ = .error .noLiveRenderer ∧
     downloadGLBClick (fun _ => [0]) ⟨none, none, none, 0⟩ = .error .noLiveMesh ∧
     downloadPNGClick (fun _ => [0]) ⟨some 1, some ⟨0, true⟩, some ⟨[], []⟩, 2⟩
       = .ok ((fun _ => [0]) (⟨0, true⟩ : Renderer)) ∧
     downloadGLBClick (fun _ => [0]) ⟨some 1, some ⟨0, true⟩, some ⟨[], []⟩, 2⟩
       = .ok ((fun _ => [0]) (⟨[], []⟩ : BuiltMesh))) :=
  ⟨⟨rfl, rfl, rfl, rfl⟩,
    export_guards (fun _ => [0]) (fun _ => [0]) ⟨none, none, none, 0⟩
      ⟨some 1, some ⟨0, true⟩, some ⟨[], []⟩, 2⟩ ⟨0, true⟩ ⟨[], []⟩ rfl rfl rfl rfl⟩

/-- C9: for `imgWidth, imgHeight ≥ 1`, a buffer of length `W*H*4` and UV
in `[0,1]²`, the sampled coordinates satisfy `0 ≤ px ≤ W-1` and
`0 ≤ py ≤ H-1`, and the byte read at `(py*W + px)*4` is inside the
buffer: displacement never reads outside the depth buffer. -/
theorem depth_read_in_bounds (W H : ℕ) (data : List ℕ) (u v : ℚ)
    (hW : 1 ≤ W) (hH : 1 ≤ H) (hlen : data.length = W * H * 4)
    (hu0 : 0 ≤ u) (hu1 : u ≤ 1) (hv0 : 0 ≤ v) (hv1 : v ≤ 1) :
    0 ≤ samplePx W u ∧ samplePx W u ≤ (W : ℤ) - 1 ∧
    0 ≤ samplePy H v ∧ samplePy H v ≤ (H : ℤ) - 1 ∧
    0 ≤ sampleIdx W H u v ∧ (sampleIdx W H u v).toNat < data.length := by
  obtain ⟨hs0, hs1⟩ := sampleSlot_bounds W H u v hW hH hu0 hu1 hv0 hv1
  have hidx0 : 0 ≤ sampleIdx W H u v := by
    unfold sampleIdx
    positivity
  refine ⟨samplePx_nonneg W u hW hu0, samplePx_le W u hW hu1 hu0,
    samplePy_nonneg H v hH hv1, samplePy_le H v hH hv1 hv0, hidx0, ?_⟩
  have hcast : samplePy H v * W + samplePx W u < ((W * H : ℕ) : ℤ) := by
    push_cast
    exact hs1
  rw [hlen]
  unfold sampleIdx at hidx0 ⊢
  generalize hS : samplePy H v * (W : ℤ) + samplePx W u = S at hs0 hcast hidx0 ⊢
  generalize hA : W * H = A at hcast ⊢
  omega

/-- Witness for C9 at a 1×1 buffer, `u = 0`, `v = 1`. -/
theorem depth_read_in_bounds_witness :
    (1 ≤ 1 ∧ ([0, 0, 0, 255] : List ℕ).length = 1 * 1 * 4 ∧
     (0 : ℚ) ≤ 0 ∧ (0 : ℚ) ≤ 1 ∧ (1 : ℚ) ≤ 1) ∧
    (0 ≤ samplePx 1 0 ∧ samplePx 1 0 ≤ (1 : ℤ) - 1 ∧
     0 ≤ samplePy 1 1 ∧ samplePy 1 1 ≤ (1 : ℤ) - 1 ∧
     0 ≤ sampleIdx 1 1 0 1 ∧ (sampleIdx 1 1 0 1).toNat < ([0, 0, 0, 255] : List ℕ).length) :=
  ⟨⟨le_refl 1, rfl, le_refl 0, zero_le_one, le_refl 1⟩,
    depth_read_in_bounds 1 1 [0, 0, 0, 255] 0 1 (le_refl 1) (le_refl 1) rfl
      (le_refl 0) zero_le_one zero_le_one (le_refl 1)⟩

/-- The `hasEdited` flag stays `false` under any pointer-event sequence
that contains no `pointerup`. -/
theorem hasEdited_stable_of_no_up (evs : List PointerEv) :
    ∀ s : EditState, s.hasEdited = false → PointerEv.up ∉ evs →
      (runEdit s evs).hasEdited = false := by
  induction evs with
  | nil =>
    intro s h _
    exact h
  | cons e rest ih =>
    intro s h hm
    rw [List.mem_cons] at hm
    push_neg at hm
    have h1 : (editStep s e).hasEdited = false := by
      cases e with
      | down x y => simpa [editStep] using h
      | move x y => by_cases hd : s.isDrawing <;> simp [editStep, hd, h]
      | up => exact absurd rfl hm.1.symm
      | leave => simpa [editStep] using h
    exact ih (editStep s e) h1 hm.2

/-- C10: a paint session whose strokes never end with a `pointerup` on the
surface (e.g. only `pointerleave`) leaves `hasEdited = false`, so the
conversion still selects the computed luminance path even though paint
operations occurred; only `pointerup` marks the field as authored, and
`pointerleave` stops drawing without authoring. -/
theorem pointerleave_not_authoring (evs : List PointerEv) (s : EditState)
    (canvas : DepthCanvas) (img : UploadedImage)
    (hnoup : PointerEv.up ∉ evs) :
    (runEdit initEditState evs).hasEdited = false ∧
    convertDepthSource (runEdit initEditState evs).hasEdited canvas img
      = ((downscaleDims img.naturalWidth img.naturalHeight).1,
         (downscaleDims img.naturalWidth img.naturalHeight).2,
         computeLuminanceData (img.resample (downscaleDims img.naturalWidth img.naturalHeight).1
           (downscaleDims img.naturalWidth img.naturalHeight).2)) ∧
    (editStep s PointerEv.up).hasEdited = true ∧
    (editStep s PointerEv.leave).isDrawing = false ∧
    (editStep s PointerEv.leave).hasEdited = s.hasEdited := by
  have h0 := hasEdited_stable_of_no_up evs initEditState rfl hnoup
  refine ⟨h0, ?_, rfl, rfl, rfl⟩
  rw [h0]
  simp [convertDepthSource]

/-- Witness for C10: a stroke `down, move, leave` paints two circles yet
leaves the session unauthored. -/
theorem pointerleave_not_authoring_witness :
    (PointerEv.up ∉ [PointerEv.down 1 2, PointerEv.move 3 4, PointerEv.leave] ∧
     (runEdit initEditState [PointerEv.down 1 2, PointerEv.move 3 4, PointerEv.leave]).paints
       ≠ []) ∧
    ((runEdit initEditState [PointerEv.down 1 2, PointerEv.move 3 4, PointerEv.leave]).hasEdited
       = false ∧
     convertDepthSource
        (runEdit initEditState
          [PointerEv.down 1 2, PointerEv.move 3 4, PointerEv.leave]).hasEdited
        ⟨1, 1, [0, 0, 0, 255]⟩ ⟨1, 1, fun _ _ => [9, 9, 9, 255]⟩
      = ((downscaleDims 1 1).1, (downscaleDims 1 1).2,
         computeLuminanceData
           ((fun _ _ => [9, 9, 9, 255] : ℕ → ℕ → List ℕ) (downscaleDims 1 1).1
             (downscaleDims 1 1).2)) ∧
     (editStep ⟨true, false, [(5, 6)]⟩ PointerEv.up).hasEdited = true ∧
     (editStep ⟨true, false, [(5, 6)]⟩ PointerEv.leave).isDrawing = false ∧
     (editStep ⟨true, false, [(5, 6)]⟩ PointerEv.leave).hasEdited
       = (⟨true, false, [(5, 6)]⟩ : EditState).hasEdited) :=
  ⟨⟨by simp, by simp [runEdit, editStep, initEditState]⟩,
    pointerleave_not_authoring [PointerEv.down 1 2, PointerEv.move 3 4, PointerEv.leave]
      ⟨true, false, [(5, 6)]⟩ ⟨1, 1, [0, 0, 0, 255]⟩ ⟨1, 1, fun _ _ => [9, 9, 9, 255]⟩
      (by simp)⟩

end ImageTo3D
